import Mathlib

/- Verification development for the firestore document value decoding and
   write-transform-sentinel subsystem (packages/firestore/src/api/user_data_writer.ts
   and the lite field-value sentinel module).

   Wire values are modelled as a closed tagged union, following the data model
   of the specification (the proto layer represents the tag by which optional
   field of the record is populated, with the invariant that exactly one
   variant tag is populated per value; an extra `unknownV` constructor stands
   for a value whose shape matches none of the recognized variants, i.e. a
   value on which type discrimination fails).  Host numbers are modelled as
   rationals, bytes as lists of naturals.  The decoder returns
   `Except DecodeError (HostValue × List String)`: the `List String` collects
   the non-fatal diagnostics emitted during the call (the cross-database log),
   and `Except.error` models a fatal invariant failure (`fail` / `hardAssert`). -/

namespace FirestoreSpec

/-- Identifies a logical database (project + database name); equality is
structural.  Modelled from the spec: `DatabaseId` itself is declared in
core/database_info.ts, which is not among the sources. -/
structure DatabaseId where
  projectId : String
  database : String
deriving DecidableEq, Repr

/-- Structural equality on database identities (spec §3: equality is structural). -/
def DatabaseId.isEqual (a b : DatabaseId) : Bool :=
  decide (a = b)

/-- Modelled from the spec: a hierarchical, slash-delimited resource path
(model/path.ts is not among the sources). -/
structure ResourcePath where
  segments : List String
deriving DecidableEq, Repr

/-- Split a character list at every slash, accumulating the current segment
in reverse. -/
def splitOnSlash : List Char → List Char → List String
  | [], cur => [String.mk cur.reverse]
  | c :: rest, cur =>
    if c = '/' then String.mk cur.reverse :: splitOnSlash rest []
    else splitOnSlash rest (c :: cur)

/-- Modelled from the spec: parse a slash-delimited resource-name string into
its nonempty segments. -/
def ResourcePath.fromString (path : String) : ResourcePath :=
  ⟨(splitOnSlash path.data []).filter (fun s => s.length > 0)⟩

def ResourcePath.length (p : ResourcePath) : Nat :=
  p.segments.length

def ResourcePath.get (p : ResourcePath) (i : Nat) : String :=
  p.segments.getD i ""

def ResourcePath.popFirst (p : ResourcePath) (n : Nat) : ResourcePath :=
  ⟨p.segments.drop n⟩

/-- Modelled from the spec: structural validation of a document resource name
(remote/serializer.ts is not among the sources) — the name must begin with the
fixed `projects/:p/databases/:d` prefix, so it has at least four segments with
segment 0 equal to "projects" and segment 2 equal to "databases". -/
def isValidResourceName (p : ResourcePath) : Bool :=
  decide (4 ≤ p.length) && decide (p.get 0 = "projects") && decide (p.get 2 = "databases")

/-- A validated hierarchical path identifying a document
(model/document_key.ts is not among the sources; modelled from the spec). -/
structure DocumentKey where
  path : ResourcePath
deriving DecidableEq, Repr

def DocumentKey.toString (k : DocumentKey) : String :=
  String.intercalate "/" k.path.segments

/-- A wire-level (seconds, nanoseconds) timestamp. -/
structure ProtoTimestamp where
  seconds : Int
  nanos : Int
deriving DecidableEq, Repr

/-- Modelled from the spec: timestamp normalization (model/values.ts is not
among the sources) — the nanosecond component is normalized into [0, 1e9),
carrying whole seconds into the seconds component. -/
def normalizeTimestamp (t : ProtoTimestamp) : ProtoTimestamp :=
  ⟨t.seconds + t.nanos.ediv 1000000000, t.nanos.emod 1000000000⟩

/-- The user-facing Timestamp value (api/timestamp.ts is not among the
sources; modelled from the spec as a plain (seconds, nanoseconds) pair). -/
structure Timestamp where
  seconds : Int
  nanoseconds : Int
deriving DecidableEq, Repr

/-- Modelled from the spec: numeric normalization (model/values.ts is not
among the sources) — reproduce the native numeric value losslessly; an absent
value normalizes to zero.  Host numbers are modelled as rationals. -/
def normalizeNumber (v : Option ℚ) : ℚ :=
  v.getD 0

/-- The user-facing GeoPoint value (api/geo_point.ts is not among the sources;
modelled from the spec as a (latitude, longitude) pair of normalized numbers). -/
structure GeoPoint where
  latitude : ℚ
  longitude : ℚ
deriving DecidableEq, Repr

/-- A byte sequence, kept abstract as a list of byte values. -/
abbrev ByteString := List Nat

/-- Modelled from the spec: the blob payload is passed through as a raw byte
sequence (util/byte_string.ts is not among the sources). -/
def normalizeByteString (b : ByteString) : ByteString :=
  b

/-- The three server-timestamp resolution policies
(type ServerTimestampBehavior in user_data_writer.ts). -/
inductive ServerTimestampBehavior where
  | estimate
  | previous
  | none
deriving DecidableEq, Repr

/-- The wire value tagged union (protos + model/values.ts type discrimination,
modelled from the spec §3).  Exactly one variant tag is populated per value;
`numberV` keeps both optional numeric fields of the proto record since the
source reads `value.integerValue || value.doubleValue`; `unknownV` stands for
a wire value of unrecognized shape, on which type discrimination fails. -/
inductive WireValue where
  | nullV
  | boolV (booleanValue : Bool)
  | numberV (integerValue : Option Int) (doubleValue : Option ℚ)
  | timestampV (timestampValue : ProtoTimestamp)
  | serverTimestampV (localWriteTime : ProtoTimestamp) (previousValue : Option WireValue)
  | stringV (stringValue : String)
  | blobV (bytesValue : ByteString)
  | refV (referenceValue : String)
  | geoPointV (latitude : Option ℚ) (longitude : Option ℚ)
  | arrayV (values : Option (List WireValue))
  | mapV (fields : Option (List (String × WireValue)))
  | unknownV (raw : String)

/-- The type-order tags used by the decoder's dispatch (model/object_value.ts). -/
inductive TypeOrder where
  | NullValue
  | BooleanValue
  | NumberValue
  | TimestampValue
  | ServerTimestampValue
  | StringValue
  | BlobValue
  | RefValue
  | GeoPointValue
  | ArrayValue
  | ObjectValue
deriving DecidableEq, Repr

/-- Modelled from the spec: type discrimination over the wire value
(typeOrder in model/values.ts is not among the sources).  Total over the
eleven recognized variants; `Option.none` models the fatal discrimination
failure on an unrecognized shape. -/
def typeOrder : WireValue → Option TypeOrder
  | .nullV => some .NullValue
  | .boolV _ => some .BooleanValue
  | .numberV _ _ => some .NumberValue
  | .timestampV _ => some .TimestampValue
  | .serverTimestampV _ _ => some .ServerTimestampValue
  | .stringV _ => some .StringValue
  | .blobV _ => some .BlobValue
  | .refV _ => some .RefValue
  | .geoPointV _ _ => some .GeoPointValue
  | .arrayV _ => some .ArrayValue
  | .mapV _ => some .ObjectValue
  | .unknownV _ => Option.none

/-- JavaScript `a || b` on the two optional numeric proto fields of a Number
wire value (`value.integerValue || value.doubleValue`, user_data_writer.ts
line 73): an absent operand and the number 0 are falsy. -/
def jsLogicalOrNumber (integerValue : Option Int) (doubleValue : Option ℚ) : Option ℚ :=
  match integerValue with
  | some i => if i = 0 then doubleValue else some (i : ℚ)
  | Option.none => doubleValue

/-- The host-value universe produced by the decoder (`unknown` on the
TypeScript side).  Reference and blob constructors are available so that the
injected factories can be instantiated concretely. -/
inductive HostValue where
  | nullH
  | boolH (b : Bool)
  | numberH (n : ℚ)
  | timestampH (t : Timestamp)
  | stringH (s : String)
  | bytesH (b : ByteString)
  | refH (key : DocumentKey)
  | geoPointH (g : GeoPoint)
  | arrayH (xs : List HostValue)
  | mapH (fields : List (String × HostValue))

/-- Fatal decoder failures: `fail` on an unrecognized tag (user_data_writer.ts
line 91) and `hardAssert` on an invalid reference name (lines 147-150). -/
inductive DecodeError where
  | invalidValueType (raw : String)
  | invalidReferenceValue (name : String)
deriving DecidableEq, Repr

/-- Result of a decoder call: either a fatal failure, or the host value
together with the list of non-fatal diagnostics emitted during the call. -/
abbrev ConvertResult := Except DecodeError (HostValue × List String)

/-- The decoder's injected configuration: local database identity and the two
factories (user_data_writer.ts lines 56-61). -/
structure UserDataWriter where
  databaseId : DatabaseId
  referenceFactory : DocumentKey → HostValue
  bytesFactory : ByteString → HostValue

/-- convertTimestamp (user_data_writer.ts lines 140-143). -/
def convertTimestamp (value : ProtoTimestamp) : Timestamp :=
  let normalizedValue := normalizeTimestamp value
  ⟨normalizedValue.seconds, normalizedValue.nanos⟩

/-- convertGeoPoint (user_data_writer.ts lines 106-111). -/
def convertGeoPoint (latitude longitude : Option ℚ) : GeoPoint :=
  ⟨normalizeNumber latitude, normalizeNumber longitude⟩

/-- The cross-database diagnostic message (user_data_writer.ts lines 156-163). -/
def crossDatabaseLogMessage (key : DocumentKey) (databaseId localId : DatabaseId) : String :=
  "Document " ++ key.toString ++ " contains a document reference within a " ++
    "different database (" ++ databaseId.projectId ++ "/" ++ databaseId.database ++
    ") which is not supported. It will be treated as a reference in the current " ++
    "database (" ++ localId.projectId ++ "/" ++ localId.database ++ ") instead."

/-- convertReference (user_data_writer.ts lines 145-167): parse the resource
name, hard-assert structural validity, extract the embedded database identity
from segments 1 and 3, build the key from the path with its first 5 segments
stripped, emit the cross-database diagnostic when the embedded identity
differs from the local one, and construct the reference through the factory. -/
def convertReference (w : UserDataWriter) (name : String) : ConvertResult :=
  let resourcePath := ResourcePath.fromString name
  if isValidResourceName resourcePath then
    let databaseId : DatabaseId := ⟨resourcePath.get 1, resourcePath.get 3⟩
    let key : DocumentKey := ⟨resourcePath.popFirst 5⟩
    if DatabaseId.isEqual databaseId w.databaseId then
      .ok (w.referenceFactory key, [])
    else
      .ok (w.referenceFactory key, [crossDatabaseLogMessage key databaseId w.databaseId])
  else
    .error (.invalidReferenceValue name)

mutual

/-- convertValue (user_data_writer.ts lines 63-93): dispatch over the value's
type-order tag; the default branch (an unrecognized tag) is a fatal failure. -/
def convertValue (w : UserDataWriter) (value : WireValue)
    (serverTimestampBehavior : ServerTimestampBehavior) : ConvertResult :=
  match value with
  | .nullV => .ok (.nullH, [])
  | .boolV b => .ok (.boolH b, [])
  | .numberV iv dv => .ok (.numberH (normalizeNumber (jsLogicalOrNumber iv dv)), [])
  | .timestampV t => .ok (.timestampH (convertTimestamp t), [])
  | .serverTimestampV lwt pv => convertServerTimestamp w lwt pv serverTimestampBehavior
  | .stringV s => .ok (.stringH s, [])
  | .blobV bytes => .ok (w.bytesFactory (normalizeByteString bytes), [])
  | .refV name => convertReference w name
  | .geoPointV lat lng => .ok (.geoPointH (convertGeoPoint lat lng), [])
  | .arrayV values => convertArray w values serverTimestampBehavior
  | .mapV fields => convertObject w fields serverTimestampBehavior
  | .unknownV raw => .error (.invalidValueType raw)

/-- convertServerTimestamp (user_data_writer.ts lines 122-138), with the
metadata accessors getLocalWriteTime / getPreviousValue modelled from the
spec (model/server_timestamps.ts is not among the sources) as projections of
the ServerTimestamp variant's `localWriteTime` and optional `previousValue`. -/
def convertServerTimestamp (w : UserDataWriter) (localWriteTime : ProtoTimestamp)
    (previousValue : Option WireValue)
    (serverTimestampBehavior : ServerTimestampBehavior) : ConvertResult :=
  match serverTimestampBehavior with
  | .previous =>
    match previousValue with
    | Option.none => .ok (.nullH, [])
    | some p => convertValue w p serverTimestampBehavior
  | .estimate => .ok (.timestampH (convertTimestamp localWriteTime), [])
  | _ => .ok (.nullH, [])

/-- convertArray (user_data_writer.ts lines 113-120): `arrayValue.values || []`
mapped elementwise with the same behavior. -/
def convertArray (w : UserDataWriter) (values : Option (List WireValue))
    (serverTimestampBehavior : ServerTimestampBehavior) : ConvertResult :=
  match values with
  | some vs =>
    match convertList w vs serverTimestampBehavior with
    | .ok (hs, logs) => .ok (.arrayH hs, logs)
    | .error e => .error e
  | Option.none => .ok (.arrayH [], [])

/-- convertObject (user_data_writer.ts lines 95-104): iterate
`mapValue.fields || {}` in order, converting each field with the same
behavior. -/
def convertObject (w : UserDataWriter) (fields : Option (List (String × WireValue)))
    (serverTimestampBehavior : ServerTimestampBehavior) : ConvertResult :=
  match fields with
  | some fs =>
    match convertFields w fs serverTimestampBehavior with
    | .ok (hs, logs) => .ok (.mapH hs, logs)
    | .error e => .error e
  | Option.none => .ok (.mapH [], [])

/-- Elementwise conversion of an array's values (the `.map` of convertArray),
collecting diagnostics in order and short-circuiting on the first fatal
failure. -/
def convertList (w : UserDataWriter) (vs : List WireValue)
    (serverTimestampBehavior : ServerTimestampBehavior) :
    Except DecodeError (List HostValue × List String) :=
  match vs with
  | [] => .ok ([], [])
  | v :: rest =>
    match convertValue w v serverTimestampBehavior with
    | .ok (h, l1) =>
      match convertList w rest serverTimestampBehavior with
      | .ok (hs, l2) => .ok (h :: hs, l1 ++ l2)
      | .error e => .error e
    | .error e => .error e

/-- Fieldwise conversion of a map's fields (the `forEach` loop of
convertObject), preserving the wire map's field ordering. -/
def convertFields (w : UserDataWriter) (fs : List (String × WireValue))
    (serverTimestampBehavior : ServerTimestampBehavior) :
    Except DecodeError (List (String × HostValue) × List String) :=
  match fs with
  | [] => .ok ([], [])
  | (k, v) :: rest =>
    match convertValue w v serverTimestampBehavior with
    | .ok (h, l1) =>
      match convertFields w rest serverTimestampBehavior with
      | .ok (hs, l2) => .ok ((k, h) :: hs, l1 ++ l2)
      | .error e => .error e
    | .error e => .error e

end

mutual

/-- A wire value within the wire contract: its shape (and, recursively, the
shape of every nested value) is one of the eleven recognized variants, and
every embedded reference carries a structurally valid resource name. -/
def wellFormed : WireValue → Bool
  | .serverTimestampV _ (some p) => wellFormed p
  | .refV name => isValidResourceName (ResourcePath.fromString name)
  | .arrayV (some vs) => wellFormedList vs
  | .mapV (some fs) => wellFormedFields fs
  | .unknownV _ => false
  | _ => true

/-- All values of a list are within the wire contract. -/
def wellFormedList : List WireValue → Bool
  | [] => true
  | v :: rest => wellFormed v && wellFormedList rest

/-- All field values of a map are within the wire contract. -/
def wellFormedFields : List (String × WireValue) → Bool
  | [] => true
  | (_, v) :: rest => wellFormed v && wellFormedFields rest

end

/-- The scalar wire variants: null, boolean, string, number, timestamp,
geopoint and blob. -/
def isScalarWire : WireValue → Bool
  | .nullV => true
  | .boolV _ => true
  | .numberV _ _ => true
  | .timestampV _ => true
  | .stringV _ => true
  | .blobV _ => true
  | .geoPointV _ _ => true
  | _ => false

/-- The decoded host value of a conversion, forgetting diagnostics;
`Option.none` when the conversion failed fatally. -/
def decode (w : UserDataWriter) (v : WireValue) (b : ServerTimestampBehavior) :
    Option HostValue :=
  (convertValue w v b).toOption.map Prod.fst

/-- A concrete decoder configuration over local database (P, D), with the
factories instantiated by the corresponding host-value constructors. -/
def sampleWriter : UserDataWriter :=
  ⟨⟨"P", "D"⟩, fun k => .refH k, fun bs => .bytesH bs⟩

/-- A concrete decoder configuration over local database (P, D2). -/
def sampleWriterD2 : UserDataWriter :=
  ⟨⟨"P", "D2"⟩, fun k => .refH k, fun bs => .bytesH bs⟩

mutual

/-- On every wire value within the wire contract, the decoder raises no
invariant failure. -/
theorem convertValue_ok_of_wellFormed (w : UserDataWriter) (b : ServerTimestampBehavior) :
    (v : WireValue) → wellFormed v = true → ∃ r, convertValue w v b = Except.ok r
  | .nullV, _ => ⟨(.nullH, []), rfl⟩
  | .boolV bv, _ => ⟨(.boolH bv, []), rfl⟩
  | .numberV iv dv, _ => ⟨(.numberH (normalizeNumber (jsLogicalOrNumber iv dv)), []), rfl⟩
  | .timestampV t, _ => ⟨(.timestampH (convertTimestamp t), []), rfl⟩
  | .stringV s, _ => ⟨(.stringH s, []), rfl⟩
  | .blobV bs, _ => ⟨(w.bytesFactory (normalizeByteString bs), []), rfl⟩
  | .geoPointV la lo, _ => ⟨(.geoPointH (convertGeoPoint la lo), []), rfl⟩
  | .refV name, h => by
    have hv : isValidResourceName (ResourcePath.fromString name) = true := by
      simpa [wellFormed] using h
    simp only [convertValue, convertReference, hv, if_true]
    split
    · exact ⟨_, rfl⟩
    · exact ⟨_, rfl⟩
  | .serverTimestampV lwt pv, h => by
    cases b with
    | previous =>
      cases pv with
      | none => exact ⟨(.nullH, []), rfl⟩
      | some p =>
        have hp : wellFormed p = true := by simpa [wellFormed] using h
        obtain ⟨r, hr⟩ := convertValue_ok_of_wellFormed w .previous p hp
        exact ⟨r, hr⟩
    | estimate =>
      cases pv with
      | none => exact ⟨(.timestampH (convertTimestamp lwt), []), rfl⟩
      | some p => exact ⟨(.timestampH (convertTimestamp lwt), []), rfl⟩
    | none =>
      cases pv with
      | none => exact ⟨(.nullH, []), rfl⟩
      | some p => exact ⟨(.nullH, []), rfl⟩
  | .arrayV (some vs), h => by
    have hl : wellFormedList vs = true := by simpa [wellFormed] using h
    obtain ⟨⟨hs, logs⟩, hr⟩ := convertList_ok_of_wellFormed w b vs hl
    exact ⟨(.arrayH hs, logs), by simp [convertValue, convertArray, hr]⟩
  | .arrayV Option.none, _ => ⟨(.arrayH [], []), rfl⟩
  | .mapV (some fs), h => by
    have hl : wellFormedFields fs = true := by simpa [wellFormed] using h
    obtain ⟨⟨hs, logs⟩, hr⟩ := convertFields_ok_of_wellFormed w b fs hl
    exact ⟨(.mapH hs, logs), by simp [convertValue, convertObject, hr]⟩
  | .mapV Option.none, _ => ⟨(.mapH [], []), rfl⟩
  | .unknownV raw, h => by simp [wellFormed] at h

/-- Elementwise conversion succeeds on a list of values within the contract. -/
theorem convertList_ok_of_wellFormed (w : UserDataWriter) (b : ServerTimestampBehavior) :
    (vs : List WireValue) → wellFormedList vs = true →
      ∃ r, convertList w vs b = Except.ok r
  | [], _ => ⟨([], []), rfl⟩
  | v :: rest, h => by
    simp only [wellFormedList, Bool.and_eq_true] at h
    obtain ⟨⟨h1, l1⟩, e1⟩ := convertValue_ok_of_wellFormed w b v h.1
    obtain ⟨⟨hs, l2⟩, e2⟩ := convertList_ok_of_wellFormed w b rest h.2
    exact ⟨(h1 :: hs, l1 ++ l2), by simp [convertList, e1, e2]⟩

/-- Fieldwise conversion succeeds on map fields within the contract. -/
theorem convertFields_ok_of_wellFormed (w : UserDataWriter) (b : ServerTimestampBehavior) :
    (fs : List (String × WireValue)) → wellFormedFields fs = true →
      ∃ r, convertFields w fs b = Except.ok r
  | [], _ => ⟨([], []), rfl⟩
  | (k, v) :: rest, h => by
    simp only [wellFormedFields, Bool.and_eq_true] at h
    obtain ⟨⟨h1, l1⟩, e1⟩ := convertValue_ok_of_wellFormed w b v h.1
    obtain ⟨⟨hs, l2⟩, e2⟩ := convertFields_ok_of_wellFormed w b rest h.2
    exact ⟨((k, h1) :: hs, l1 ++ l2), by simp [convertFields, e1, e2]⟩

end

/-- Elementwise decoding of a list of wire values with one fixed behavior,
preserving order and failing when any element fails: the specification-side
description of how an array's elements are converted. -/
def decodeList (w : UserDataWriter) (b : ServerTimestampBehavior) :
    List WireValue → Option (List HostValue)
  | [] => some []
  | v :: rest => (decode w v b).bind fun h =>
      (decodeList w b rest).map fun hs => h :: hs

/-- Fieldwise decoding of a map's field list with one fixed behavior,
preserving the field ordering and failing when any field fails: the
specification-side description of how a map's fields are converted. -/
def decodeFields (w : UserDataWriter) (b : ServerTimestampBehavior) :
    List (String × WireValue) → Option (List (String × HostValue))
  | [] => some []
  | (k, v) :: rest => (decode w v b).bind fun h =>
      (decodeFields w b rest).map fun hs => (k, h) :: hs

/-- The decoded value of an array's element list is the ordered elementwise
decoding, short-circuiting on the first fatal failure. -/
theorem convertList_toOption (w : UserDataWriter) (b : ServerTimestampBehavior) :
    ∀ vs : List WireValue,
      (convertList w vs b).toOption.map Prod.fst = decodeList w b vs := by
  intro vs
  induction vs with
  | nil => rfl
  | cons v rest ih =>
    show (match convertValue w v b with
      | .ok (h, l1) =>
        match convertList w rest b with
        | .ok (hs, l2) => Except.ok (h :: hs, l1 ++ l2)
        | .error e => Except.error e
      | .error e => Except.error e).toOption.map Prod.fst = _
    cases hv : convertValue w v b with
    | error e => simp [decodeList, decode, hv, Except.toOption]
    | ok r =>
      obtain ⟨h, l1⟩ := r
      cases hl : convertList w rest b with
      | error e =>
        rw [hl] at ih
        simp [decodeList, decode, hv, Except.toOption, ← ih]
      | ok r2 =>
        obtain ⟨hs, l2⟩ := r2
        rw [hl] at ih
        simp [decodeList, decode, hv, Except.toOption, ← ih]

/-- The decoded value of a map's field list is the ordered fieldwise decoding,
short-circuiting on the first fatal failure. -/
theorem convertFields_toOption (w : UserDataWriter) (b : ServerTimestampBehavior) :
    ∀ fs : List (String × WireValue),
      (convertFields w fs b).toOption.map Prod.fst = decodeFields w b fs := by
  intro fs
  induction fs with
  | nil => rfl
  | cons kv rest ih =>
    obtain ⟨k, v⟩ := kv
    show (match convertValue w v b with
      | .ok (h, l1) =>
        match convertFields w rest b with
        | .ok (hs, l2) => Except.ok ((k, h) :: hs, l1 ++ l2)
        | .error e => Except.error e
      | .error e => Except.error e).toOption.map Prod.fst = _
    cases hv : convertValue w v b with
    | error e => simp [decodeFields, decode, hv, Except.toOption]
    | ok r =>
      obtain ⟨h, l1⟩ := r
      cases hl : convertFields w rest b with
      | error e =>
        rw [hl] at ih
        simp [decodeFields, decode, hv, Except.toOption, ← ih]
      | ok r2 =>
        obtain ⟨hs, l2⟩ := r2
        rw [hl] at ih
        simp [decodeFields, decode, hv, Except.toOption, ← ih]

/- Transform sentinel model (the lite FieldValue module, src/unnamed/part_000). -/

/-- Error codes for user-facing errors; only the usage-error code is needed
here (util/error.ts is not among the sources; modelled from the spec). -/
inductive FirestoreErrorCode where
  | invalidArgument
deriving DecidableEq, Repr

/-- A user-facing error: code plus message. -/
structure FirestoreError where
  code : FirestoreErrorCode
  message : String
deriving DecidableEq, Repr

/-- Modelled from the spec: the argument-count validator
(util/input_validation.ts is not among the sources) — a usage error
(invalid-argument) when fewer than the required number of arguments were
supplied. -/
def validateAtLeastNumberOfArgs {α : Type} (functionName : String)
    (args : List α) (minNumberOfArgs : Nat) : Except FirestoreError Unit :=
  if args.length < minNumberOfArgs then
    .error ⟨.invalidArgument, "Function " ++ functionName ++ " requires at least " ++
      toString minNumberOfArgs ++ " argument."⟩
  else
    .ok ()

/-- The parse/validation context consumed at transform-resolution time.  The
spec treats it as opaque beyond exposing the current field path
(api/user_data_reader.ts is not among the sources; modelled from the spec). -/
structure ParseContext where
  fieldPath : List String
deriving DecidableEq, Repr

/-- The resolved transform operations (model/mutation.ts is not among the
sources; modelled from the spec §4.2).  `α` is the type of the raw,
not-yet-parsed elements carried by the array sentinels. -/
inductive TransformOperation (α : Type) where
  | serverTimestampTransform
  | arrayUnionTransformOperation (elements : List α)
  | arrayRemoveTransformOperation (elements : List α)
  | numericIncrementTransformOperation (operand : ℚ)
deriving DecidableEq, Repr

/-- A context-bound transform descriptor: field path plus operation. -/
structure FieldTransform (α : Type) where
  field : List String
  transform : TransformOperation α
deriving DecidableEq, Repr

/-- The sentinel implementation variants (api/field_value.ts is not among the
sources; modelled from the spec §3/§4.2): Delete and ServerTimestamp carry no
payload, ArrayUnion/ArrayRemove carry the ordered raw elements, Increment
carries the numeric operand; every variant carries its immutable `methodName`
string identity, used only for diagnostics.  This models the class
`_SerializableFieldValue` and its five concrete subclasses, each constructed
with its method name. -/
inductive SerializableFieldValue (α : Type) where
  | deleteFieldValueImpl (methodName : String)
  | serverTimestampFieldValueImpl (methodName : String)
  | arrayUnionFieldValueImpl (methodName : String) (elements : List α)
  | arrayRemoveFieldValueImpl (methodName : String) (elements : List α)
  | numericIncrementFieldValueImpl (methodName : String) (operand : ℚ)
deriving DecidableEq, Repr

/-- The `_methodName` property of a sentinel implementation. -/
def SerializableFieldValue._methodName {α : Type} : SerializableFieldValue α → String
  | .deleteFieldValueImpl m => m
  | .serverTimestampFieldValueImpl m => m
  | .arrayUnionFieldValueImpl m _ => m
  | .arrayRemoveFieldValueImpl m _ => m
  | .numericIncrementFieldValueImpl m _ => m

/-- Modelled from the spec §4.2: `_toFieldTransform` of the sentinel
implementations (api/field_value.ts is not among the sources).  Each sentinel
produces its transform descriptor against the context's field path; raw array
elements are parsed only here, at resolution time (parsing is modelled as the
identity on the raw elements).  Delete resolves to null: the deletion is a
no-op as a *transform* and is handled by the write's field mask per the
context's own rules. -/
def SerializableFieldValue._toFieldTransform {α : Type}
    (d : SerializableFieldValue α) (context : ParseContext) :
    Option (FieldTransform α) :=
  match d with
  | .deleteFieldValueImpl _ => Option.none
  | .serverTimestampFieldValueImpl _ =>
    some ⟨context.fieldPath, .serverTimestampTransform⟩
  | .arrayUnionFieldValueImpl _ elements =>
    some ⟨context.fieldPath, .arrayUnionTransformOperation elements⟩
  | .arrayRemoveFieldValueImpl _ elements =>
    some ⟨context.fieldPath, .arrayRemoveTransformOperation elements⟩
  | .numericIncrementFieldValueImpl _ operand =>
    some ⟨context.fieldPath, .numericIncrementTransformOperation operand⟩

/-- Modelled from the spec §4.2: structural equality of sentinel
implementations (api/field_value.ts is not among the sources) — two sentinels
are equal iff they are the same variant with deeply equal payloads; equality
does not depend on object identity or on `methodName` alone. -/
def SerializableFieldValue.isEqual {α : Type} [DecidableEq α] :
    SerializableFieldValue α → SerializableFieldValue α → Bool
  | .deleteFieldValueImpl _, .deleteFieldValueImpl _ => true
  | .serverTimestampFieldValueImpl _, .serverTimestampFieldValueImpl _ => true
  | .arrayUnionFieldValueImpl _ xs, .arrayUnionFieldValueImpl _ ys => decide (xs = ys)
  | .arrayRemoveFieldValueImpl _ xs, .arrayRemoveFieldValueImpl _ ys => decide (xs = ys)
  | .numericIncrementFieldValueImpl _ n, .numericIncrementFieldValueImpl _ m => decide (n = m)
  | _, _ => false

/-- The delegate wrapper (class FieldValueDelegate, part_000 lines 45-63): it
wraps one sentinel implementation and, per its constructor, stores the
wrapped implementation's `_methodName`. -/
structure FieldValueDelegate (α : Type) where
  _delegate : SerializableFieldValue α
  _methodName : String
deriving DecidableEq, Repr

/-- The FieldValueDelegate constructor (part_000 lines 48-51):
`this._methodName = _delegate._methodName`. -/
def FieldValueDelegate.wrap {α : Type} (d : SerializableFieldValue α) :
    FieldValueDelegate α :=
  ⟨d, d._methodName⟩

/-- The abstract FieldValue facade: every value the public factories produce
is a FieldValueDelegate; `foreign` stands for a FieldValue instance that is
not a FieldValueDelegate (the base FieldValue class differs between the lite,
full and legacy SDK variants, so such instances exist), i.e. a non-sentinel
from this module's point of view. -/
inductive FieldValue (α : Type) where
  | delegate (d : FieldValueDelegate α)
  | foreign (tag : String)
deriving DecidableEq, Repr

/-- FieldValueDelegate._toFieldTransform (part_000 lines 53-55): delegate to
the wrapped implementation. -/
def FieldValueDelegate._toFieldTransform {α : Type} (f : FieldValueDelegate α)
    (context : ParseContext) : Option (FieldTransform α) :=
  f._delegate._toFieldTransform context

/-- FieldValueDelegate.isEqual (part_000 lines 57-62): the other value must
itself be a FieldValueDelegate (the `instanceof` check), and then the wrapped
implementations are compared. -/
def FieldValueDelegate.isEqual {α : Type} [DecidableEq α]
    (f : FieldValueDelegate α) (other : FieldValue α) : Bool :=
  match other with
  | .delegate g => f._delegate.isEqual g._delegate
  | .foreign _ => false

/-- Equality at the FieldValue facade: a delegate compares via
FieldValueDelegate.isEqual; a non-delegate FieldValue is never equal to a
sentinel (modelled from the spec §4.2 equality contract). -/
def FieldValue.isEqual {α : Type} [DecidableEq α] :
    FieldValue α → FieldValue α → Bool
  | .delegate f, other => f.isEqual other
  | .foreign _, _ => false

/-- deleteField (part_000 lines 68-70). -/
def deleteField {α : Type} : FieldValue α :=
  .delegate (FieldValueDelegate.wrap (.deleteFieldValueImpl "deleteField"))

/-- serverTimestamp (part_000 lines 76-80). -/
def serverTimestamp {α : Type} : FieldValue α :=
  .delegate (FieldValueDelegate.wrap (.serverTimestampFieldValueImpl "serverTimestamp"))

/-- arrayUnion (part_000 lines 93-100): validate the argument count first,
then build the sentinel carrying the supplied elements unparsed. -/
def arrayUnion {α : Type} (elements : List α) : Except FirestoreError (FieldValue α) := do
  validateAtLeastNumberOfArgs "arrayUnion()" elements 1
  pure (.delegate (FieldValueDelegate.wrap (.arrayUnionFieldValueImpl "arrayUnion" elements)))

/-- arrayRemove (part_000 lines 112-119): validate the argument count first,
then build the sentinel carrying the supplied elements unparsed. -/
def arrayRemove {α : Type} (elements : List α) : Except FirestoreError (FieldValue α) := do
  validateAtLeastNumberOfArgs "arrayRemove()" elements 1
  pure (.delegate (FieldValueDelegate.wrap (.arrayRemoveFieldValueImpl "arrayRemove" elements)))

/-- increment (part_000 lines 138-142). -/
def increment {α : Type} (n : ℚ) : FieldValue α :=
  .delegate (FieldValueDelegate.wrap (.numericIncrementFieldValueImpl "increment" n))

/- Claim theorems. -/

/-- C1: for every ServerTimestamp wire value, behavior "none" converts to
null, "estimate" converts to the Timestamp decoded from the localWriteTime,
and "previous" converts the previousValue recursively with behavior
"previous" when it is present and to null when it is absent. -/
theorem convertValue_serverTimestamp_behavior (w : UserDataWriter)
    (lwt : ProtoTimestamp) (pv : Option WireValue) (p : WireValue) :
    convertValue w (.serverTimestampV lwt pv) ServerTimestampBehavior.none
        = Except.ok (.nullH, []) ∧
    convertValue w (.serverTimestampV lwt pv) ServerTimestampBehavior.estimate
        = Except.ok (.timestampH (convertTimestamp lwt), []) ∧
    convertValue w (.serverTimestampV lwt (some p)) ServerTimestampBehavior.previous
        = convertValue w p ServerTimestampBehavior.previous ∧
    convertValue w (.serverTimestampV lwt Option.none) ServerTimestampBehavior.previous
        = Except.ok (.nullH, []) := by
  refine ⟨?_, ?_, rfl, rfl⟩ <;> cases pv <;> rfl

/-- C2: a Reference wire value whose resource name passes structural
validation converts, without failing, to the reference built from the
resource path with its first 5 segments stripped; when the database identity
extracted from segments 1 and 3 differs from the decoder's local database
identity, the same reference is still constructed and exactly one non-fatal
diagnostic is emitted. -/
theorem convertValue_reference_cross_database (w : UserDataWriter)
    (b : ServerTimestampBehavior) (name : String)
    (h : isValidResourceName (ResourcePath.fromString name) = true) :
    convertValue w (.refV name) b =
      Except.ok (w.referenceFactory ⟨(ResourcePath.fromString name).popFirst 5⟩,
        if (⟨(ResourcePath.fromString name).get 1,
              (ResourcePath.fromString name).get 3⟩ : DatabaseId) = w.databaseId
        then []
        else [crossDatabaseLogMessage ⟨(ResourcePath.fromString name).popFirst 5⟩
          ⟨(ResourcePath.fromString name).get 1, (ResourcePath.fromString name).get 3⟩
          w.databaseId]) ∧
    ((⟨(ResourcePath.fromString name).get 1,
        (ResourcePath.fromString name).get 3⟩ : DatabaseId) ≠ w.databaseId →
      ∃ msg, convertValue w (.refV name) b =
        Except.ok (w.referenceFactory ⟨(ResourcePath.fromString name).popFirst 5⟩,
          [msg])) := by
  have heq : convertValue w (.refV name) b = convertReference w name := rfl
  constructor
  · rw [heq]
    simp only [convertReference, h, if_true]
    by_cases hd : (⟨(ResourcePath.fromString name).get 1,
        (ResourcePath.fromString name).get 3⟩ : DatabaseId) = w.databaseId
    · simp [DatabaseId.isEqual, hd]
    · simp [DatabaseId.isEqual, hd]
  · intro hd
    refine ⟨crossDatabaseLogMessage ⟨(ResourcePath.fromString name).popFirst 5⟩
      ⟨(ResourcePath.fromString name).get 1, (ResourcePath.fromString name).get 3⟩
      w.databaseId, ?_⟩
    rw [heq]
    simp [convertReference, h, DatabaseId.isEqual, hd]

/-- C2 witness: "projects/P/databases/D/documents/coll/doc" decoded under
local database (P, D2) still yields the reference with key coll/doc, with one
diagnostic. -/
theorem convertValue_reference_cross_database_witness :
    isValidResourceName (ResourcePath.fromString
        "projects/P/databases/D/documents/coll/doc") = true ∧
    ∃ msg, convertValue sampleWriterD2
        (.refV "projects/P/databases/D/documents/coll/doc")
        ServerTimestampBehavior.none
      = Except.ok (.refH ⟨⟨["coll", "doc"]⟩⟩, [msg]) := by
  have hvalid : isValidResourceName (ResourcePath.fromString
      "projects/P/databases/D/documents/coll/doc") = true := by decide
  have hd : (⟨(ResourcePath.fromString
        "projects/P/databases/D/documents/coll/doc").get 1,
      (ResourcePath.fromString
        "projects/P/databases/D/documents/coll/doc").get 3⟩ : DatabaseId)
      ≠ sampleWriterD2.databaseId := by decide
  exact ⟨hvalid, (convertValue_reference_cross_database sampleWriterD2
    ServerTimestampBehavior.none "projects/P/databases/D/documents/coll/doc"
    hvalid).2 hd⟩

/-- C3: a Number wire value normalizes by preferring the integer
representation when present and using the floating-point one otherwise, and
an integer wire value and a floating-point wire value representing the same
mathematical value normalize to equal host numbers. -/
theorem convertValue_number_normalization (w : UserDataWriter)
    (b : ServerTimestampBehavior) (i : Int) (d : ℚ) :
    convertValue w (.numberV (some i) Option.none) b
        = Except.ok (.numberH (i : ℚ), []) ∧
    convertValue w (.numberV Option.none (some d)) b
        = Except.ok (.numberH d, []) ∧
    ((i : ℚ) = d →
      convertValue w (.numberV (some i) Option.none) b
        = convertValue w (.numberV Option.none (some d)) b) := by
  have hj : normalizeNumber (jsLogicalOrNumber (some i) Option.none) = (i : ℚ) := by
    by_cases h0 : i = 0
    · subst h0
      simp [jsLogicalOrNumber, normalizeNumber]
    · simp [jsLogicalOrNumber, normalizeNumber, h0]
  have h1 : convertValue w (.numberV (some i) Option.none) b
      = Except.ok (.numberH (i : ℚ), []) := by
    show (Except.ok (.numberH (normalizeNumber (jsLogicalOrNumber (some i) Option.none)), [])
        : ConvertResult) = Except.ok (.numberH (i : ℚ), [])
    rw [hj]
  have h2 : convertValue w (.numberV Option.none (some d)) b
      = Except.ok (.numberH d, []) := rfl
  exact ⟨h1, h2, fun he => by rw [h1, h2, he]⟩

/-- C3 witness: the integer wire value 0 and the floating-point wire value 0
normalize to equal host numbers. -/
theorem convertValue_number_normalization_witness :
    ((0 : Int) : ℚ) = (0 : ℚ) ∧
    convertValue sampleWriter (.numberV (some 0) Option.none)
        ServerTimestampBehavior.none
      = convertValue sampleWriter (.numberV Option.none (some 0))
        ServerTimestampBehavior.none := by
  have hz : ((0 : Int) : ℚ) = (0 : ℚ) := by norm_num
  exact ⟨hz, (convertValue_number_normalization sampleWriter
    ServerTimestampBehavior.none 0 0).2.2 hz⟩

/-- C4: the decoder fails fatally exactly on input outside the wire contract:
a value whose shape matches none of the eleven recognized variants aborts at
the dispatch's default branch, a Reference wire value with an invalid
resource name aborts at the hard assertion, and every wire value within the
wire contract converts without any invariant failure. -/
theorem convertValue_fatal_iff_outside_contract (w : UserDataWriter)
    (b : ServerTimestampBehavior) :
    (∀ v : WireValue, typeOrder v = Option.none →
        ∃ e, convertValue w v b = Except.error e) ∧
    (∀ name : String, isValidResourceName (ResourcePath.fromString name) = false →
        convertValue w (.refV name) b = Except.error (.invalidReferenceValue name)) ∧
    (∀ v : WireValue, wellFormed v = true →
        ∃ r, convertValue w v b = Except.ok r) := by
  refine ⟨?_, ?_, fun v h => convertValue_ok_of_wellFormed w b v h⟩
  · intro v h
    cases v <;> first
      | exact ⟨_, rfl⟩
      | simp [typeOrder] at h
  · intro name h
    show convertReference w name = _
    simp [convertReference, h]

/-- C4 witness: an unrecognized shape aborts, an invalid reference name
aborts, and a well-formed reference value converts successfully. -/
theorem convertValue_fatal_iff_outside_contract_witness :
    (∃ e, convertValue sampleWriter (.unknownV "surprise")
        ServerTimestampBehavior.none = Except.error e) ∧
    convertValue sampleWriter (.refV "projects/P") ServerTimestampBehavior.none
        = Except.error (.invalidReferenceValue "projects/P") ∧
    ∃ r, convertValue sampleWriter
        (.refV "projects/P/databases/D/documents/coll/doc")
        ServerTimestampBehavior.none = Except.ok r :=
  ⟨(convertValue_fatal_iff_outside_contract sampleWriter
      ServerTimestampBehavior.none).1 _ rfl,
   (convertValue_fatal_iff_outside_contract sampleWriter
      ServerTimestampBehavior.none).2.1 _ (by decide),
   (convertValue_fatal_iff_outside_contract sampleWriter
      ServerTimestampBehavior.none).2.2 _ (by decide)⟩

/-- C5: arrayUnion and arrayRemove with zero elements each fail with an
invalid-argument usage error before constructing any sentinel; with at least
one element each succeeds with the sentinel carrying the supplied elements
unparsed. -/
theorem arrayUnion_arrayRemove_arity (α : Type) (es : List α)
    (h : 1 ≤ es.length) :
    (∃ m, arrayUnion ([] : List α)
        = Except.error (⟨.invalidArgument, m⟩ : FirestoreError)) ∧
    (∃ m, arrayRemove ([] : List α)
        = Except.error (⟨.invalidArgument, m⟩ : FirestoreError)) ∧
    arrayUnion es = Except.ok (.delegate (FieldValueDelegate.wrap
        (.arrayUnionFieldValueImpl "arrayUnion" es))) ∧
    arrayRemove es = Except.ok (.delegate (FieldValueDelegate.wrap
        (.arrayRemoveFieldValueImpl "arrayRemove" es))) := by
  have hn : ¬ es.length < 1 := by omega
  refine ⟨⟨_, rfl⟩, ⟨_, rfl⟩, ?_, ?_⟩ <;>
    simp [arrayUnion, arrayRemove, validateAtLeastNumberOfArgs, hn]

/-- C5 witness: one element succeeds carrying that element, zero elements
fail with a usage error. -/
theorem arrayUnion_arrayRemove_arity_witness :
    1 ≤ ([1] : List Nat).length ∧
    arrayUnion ([1] : List Nat) = Except.ok (.delegate (FieldValueDelegate.wrap
      (.arrayUnionFieldValueImpl "arrayUnion" [1]))) ∧
    ∃ m, arrayUnion ([] : List Nat)
      = Except.error (⟨.invalidArgument, m⟩ : FirestoreError) := by
  have hx := arrayUnion_arrayRemove_arity Nat [1] (by decide)
  exact ⟨by decide, hx.2.2.1, hx.1⟩

/-- C6: sentinel equality is structural and identity-independent:
increment(a) equals a separately constructed increment(a); increment(a) is
not equal to increment(b) for a different operand, not equal to deleteField,
and not equal to a FieldValue that is not a sentinel delegate; deleteField
equals deleteField. -/
theorem sentinel_structural_equality (α : Type) [DecidableEq α]
    (a b : ℚ) (t : String) (h : a ≠ b) :
    FieldValue.isEqual (increment a : FieldValue α) (increment a) = true ∧
    FieldValue.isEqual (increment a : FieldValue α) (increment b) = false ∧
    FieldValue.isEqual (increment a : FieldValue α) deleteField = false ∧
    FieldValue.isEqual (increment a : FieldValue α) (.foreign t) = false ∧
    FieldValue.isEqual (deleteField : FieldValue α) deleteField = true := by
  refine ⟨?_, ?_, rfl, rfl, rfl⟩
  · simp [increment, FieldValue.isEqual, FieldValueDelegate.isEqual,
      FieldValueDelegate.wrap, SerializableFieldValue.isEqual]
  · simp [increment, FieldValue.isEqual, FieldValueDelegate.isEqual,
      FieldValueDelegate.wrap, SerializableFieldValue.isEqual, h]

/-- C6 witness: increment(5) twice compare equal; increment(5) and
increment(6) compare unequal. -/
theorem sentinel_structural_equality_witness :
    (5 : ℚ) ≠ (6 : ℚ) ∧
    FieldValue.isEqual (increment 5 : FieldValue Nat) (increment 5) = true ∧
    FieldValue.isEqual (increment 5 : FieldValue Nat) (increment 6) = false := by
  have h5 : (5 : ℚ) ≠ (6 : ℚ) := by norm_num
  have hx := sentinel_structural_equality Nat 5 6 "x" h5
  exact ⟨h5, hx.1, hx.2.1⟩

/-- C7: an Array wire value converts each element recursively with the same
behavior preserving order, and a Map wire value converts each field
recursively with the same behavior preserving the wire map's field ordering. -/
theorem convertValue_containers_recursive (w : UserDataWriter)
    (b : ServerTimestampBehavior) (vs : List WireValue)
    (fs : List (String × WireValue)) :
    decode w (.arrayV (some vs)) b = (decodeList w b vs).map HostValue.arrayH ∧
    decode w (.mapV (some fs)) b = (decodeFields w b fs).map HostValue.mapH := by
  constructor
  · have h1 : convertValue w (.arrayV (some vs)) b
        = (match convertList w vs b with
          | .ok (hs, logs) => Except.ok (.arrayH hs, logs)
          | .error e => Except.error e) := rfl
    rw [← convertList_toOption w b vs]
    cases hc : convertList w vs b with
    | ok r =>
      obtain ⟨hs, logs⟩ := r
      simp [decode, h1, hc, Except.toOption]
    | error e =>
      simp [decode, h1, hc, Except.toOption]
  · have h1 : convertValue w (.mapV (some fs)) b
        = (match convertFields w fs b with
          | .ok (hs, logs) => Except.ok (.mapH hs, logs)
          | .error e => Except.error e) := rfl
    rw [← convertFields_toOption w b fs]
    cases hc : convertFields w fs b with
    | ok r =>
      obtain ⟨hs, logs⟩ := r
      simp [decode, h1, hc, Except.toOption]
    | error e =>
      simp [decode, h1, hc, Except.toOption]

/-- C8: on every scalar wire value (null, boolean, string, number, timestamp,
geopoint, blob) the decoder is a pure, deterministic function of the wire
value alone: the result does not depend on the behavior, succeeds, and emits
no diagnostics. -/
theorem convertValue_scalar_pure (w : UserDataWriter) (v : WireValue)
    (b b2 : ServerTimestampBehavior) (h : isScalarWire v = true) :
    convertValue w v b = convertValue w v b2 ∧
    ∃ hv, convertValue w v b = Except.ok (hv, []) := by
  cases v <;> first
    | exact ⟨rfl, ⟨_, rfl⟩⟩
    | simp [isScalarWire] at h

/-- C8 witness: the boolean scalar converts identically under behaviors
"none" and "estimate", successfully and without diagnostics. -/
theorem convertValue_scalar_pure_witness :
    isScalarWire (.boolV true) = true ∧
    convertValue sampleWriter (.boolV true) ServerTimestampBehavior.none
      = convertValue sampleWriter (.boolV true) ServerTimestampBehavior.estimate ∧
    ∃ hv, convertValue sampleWriter (.boolV true) ServerTimestampBehavior.none
      = Except.ok (hv, []) := by
  have hx := convertValue_scalar_pure sampleWriter (.boolV true)
    ServerTimestampBehavior.none ServerTimestampBehavior.estimate rfl
  exact ⟨rfl, hx.1, hx.2⟩

/-- C9: an Array wire value with absent values converts to the empty array
and a Map wire value with absent fields converts to the empty map, neither
raising an error. -/
theorem convertValue_absent_container_fields (w : UserDataWriter)
    (b : ServerTimestampBehavior) :
    convertValue w (.arrayV Option.none) b = Except.ok (.arrayH [], []) ∧
    convertValue w (.mapV Option.none) b = Except.ok (.mapH [], []) :=
  ⟨rfl, rfl⟩

/-- C10: the delegate wrapper is transparent: for every wrapped sentinel
implementation and every parse context, the delegate's transform resolution
equals the wrapped implementation's, and the delegate's method name equals
the wrapped implementation's. -/
theorem fieldValueDelegate_transparent (α : Type) (d : SerializableFieldValue α)
    (c : ParseContext) :
    (FieldValueDelegate.wrap d)._toFieldTransform c = d._toFieldTransform c ∧
    (FieldValueDelegate.wrap d)._methodName = d._methodName :=
  ⟨rfl, rfl⟩

end FirestoreSpec
